import Mathlib

/-!
Verification of the model-bundle parsing and derivation logic of the
catalog browser (`src/app.py`): the View Path Resolver
(`get_view_file_paths`), the Field Extractor (`get_fields_from_view`),
the Join Graph Builder (`create_join_graph`), and the Field Collector
(`collect_all_fields`).

The Python functions are shallowly embedded as Lean functions.  Decoded
YAML documents become the inductive `Yaml` tree; Python dictionaries
become association lists in declaration order; Python exceptions become
`Except PyErr`; the external YAML decoder is modelled by tagging each
bundle file with its decode outcome (`PyFile`).
-/

namespace Catalog

/-- A decoded YAML value: the generic tree of mappings, sequences and
scalars produced by `yaml.safe_load`.  Mapping keys are strings (the
only key shape occurring in model bundles); entry order is declaration
order, as in Python dicts. -/
inductive Yaml where
  | str  : String → Yaml
  | int  : Int → Yaml
  | bool : Bool → Yaml
  | null : Yaml
  | seq  : List Yaml → Yaml
  | map  : List (String × Yaml) → Yaml
deriving Inhabited

/-- Python `isinstance(y, dict)`. -/
def Yaml.isMap : Yaml → Bool
  | .map _ => true
  | _ => false

/-- Python truthiness of a decoded YAML value (`if x:`). -/
def py_truthy : Yaml → Bool
  | .str s => !(s == "")
  | .int n => !(n == 0)
  | .bool b => b
  | .null => false
  | .seq l => !l.isEmpty
  | .map l => !l.isEmpty

mutual

/-- Python `repr` of a decoded YAML value (used for elements nested in
containers). -/
def py_repr : Yaml → String
  | .str s => "'" ++ s ++ "'"
  | .int n => toString n
  | .bool b => if b then "True" else "False"
  | .null => "None"
  | .seq l => "[" ++ py_repr_seq l ++ "]"
  | .map l => "\x7b" ++ py_repr_map l ++ "\x7d"

def py_repr_seq : List Yaml → String
  | [] => ""
  | [y] => py_repr y
  | y :: rest => py_repr y ++ ", " ++ py_repr_seq rest

def py_repr_map : List (String × Yaml) → String
  | [] => ""
  | [(k, v)] => "'" ++ k ++ "': " ++ py_repr v
  | (k, v) :: rest => "'" ++ k ++ "': " ++ py_repr v ++ ", " ++ py_repr_map rest

end

/-- Python str() of a decoded YAML value, as used by the f-string
interpolations in the measure SQL composition and in the
schema-qualified path of the View Path Resolver. -/
def py_str : Yaml → String
  | .str s => s
  | y => py_repr y

/-- The Python exceptions that the embedded code can raise. -/
inductive PyErr where
  | attributeError
  | yamlError
deriving Repr, DecidableEq

/-- Python `x.get(k, dflt)`: succeeds on a dict, raises
`AttributeError` on every other value (string, int, bool, None, list). -/
def py_get (y : Yaml) (k : String) (dflt : Yaml) : Except PyErr Yaml :=
  match y with
  | .map l => .ok ((l.lookup k).getD dflt)
  | _ => .error .attributeError

/-- Python `x.items()`: succeeds on a dict, raises `AttributeError`
otherwise. -/
def py_items (y : Yaml) : Except PyErr (List (String × Yaml)) :=
  match y with
  | .map l => .ok l
  | _ => .error .attributeError

/-- Model of the external PyYAML serializer call
`yaml.dump({field_name: field_def}, default_flow_style=False)`.  The
exact text is opaque to every claim; we render the single-entry mapping
structurally. -/
def yaml_dump (field_name : String) (field_def : Yaml) : String :=
  field_name ++ ": " ++ py_repr field_def ++ "\n"

/-- One field record produced by the Field Extractor: the dict literal
appended to `fields` in `get_fields_from_view` (`src/app.py`). -/
structure Field where
  name : String
  type : String
  sql : Yaml
  description : Yaml
  source_table : String
  full_definition : String

/-- Loop body of the `dimensions` loop of `get_fields_from_view`
(`src/app.py` lines 86-94). -/
def dimension_field (source_table field_name : String) (field_def : Yaml) :
    Except PyErr Field :=
  match py_get field_def "sql" (.str "") with
  | .error e => .error e
  | .ok sql =>
    match py_get field_def "description" (.str "") with
    | .error e => .error e
    | .ok descr =>
      .ok { name := field_name, type := "Dimension", sql := sql,
            description := descr, source_table := source_table,
            full_definition := yaml_dump field_name field_def }

/-- Loop body of the `measures` loop of `get_fields_from_view`
(`src/app.py` lines 98-116). -/
def measure_field (source_table field_name : String) (field_def : Yaml) :
    Except PyErr Field :=
  match py_get field_def "sql" (.str "") with
  | .error e => .error e
  | .ok sql0 =>
    match py_get field_def "aggregate_type" (.str "") with
    | .error e => .error e
    | .ok agg =>
      let sql :=
        if py_truthy agg then
          if py_truthy sql0 then
            Yaml.str (py_str agg ++ "(" ++ py_str sql0 ++ ")")
          else agg
        else sql0
      match py_get field_def "description" (.str "") with
      | .error e => .error e
      | .ok descr =>
        .ok { name := field_name, type := "Measure", sql := sql,
              description := descr, source_table := source_table,
              full_definition := yaml_dump field_name field_def }

/-- The `dimensions` loop: processes entries in declaration order, the
first raised exception aborting the whole extraction. -/
def dimension_fields (source_table : String) :
    List (String × Yaml) → Except PyErr (List Field)
  | [] => .ok []
  | (n, d) :: rest =>
    match dimension_field source_table n d with
    | .error e => .error e
    | .ok f =>
      match dimension_fields source_table rest with
      | .error e => .error e
      | .ok fs => .ok (f :: fs)

/-- The `measures` loop. -/
def measure_fields (source_table : String) :
    List (String × Yaml) → Except PyErr (List Field)
  | [] => .ok []
  | (n, d) :: rest =>
    match measure_field source_table n d with
    | .error e => .error e
    | .ok f =>
      match measure_fields source_table rest with
      | .error e => .error e
      | .ok fs => .ok (f :: fs)

/-- The `if 'dimensions' in view_data:` block of `get_fields_from_view`. -/
def dims_part (view_data : List (String × Yaml)) (source_table : String) :
    Except PyErr (List Field) :=
  match view_data.lookup "dimensions" with
  | none => .ok []
  | some d =>
    match py_items d with
    | .error e => .error e
    | .ok entries => dimension_fields source_table entries

/-- The `if 'measures' in view_data:` block of `get_fields_from_view`. -/
def meas_part (view_data : List (String × Yaml)) (source_table : String) :
    Except PyErr (List Field) :=
  match view_data.lookup "measures" with
  | none => .ok []
  | some m =>
    match py_items m with
    | .error e => .error e
    | .ok entries => measure_fields source_table entries

/-- Field Extractor: `get_fields_from_view(view_data, source_table)`
(`src/app.py` lines 80-118).  The `fields` list receives all dimension
records, then all measure records; any exception raised inside either
loop propagates to the caller. -/
def get_fields_from_view (view_data : List (String × Yaml))
    (source_table : String) : Except PyErr (List Field) :=
  match dims_part view_data source_table with
  | .error e => .error e
  | .ok ds =>
    match meas_part view_data source_table with
    | .error e => .error e
    | .ok ms => .ok (ds ++ ms)

/-- Python truthiness of the optional `view_data` argument (`None` and
the empty dict are falsy). -/
def dict_truthy : Option (List (String × Yaml)) → Bool
  | none => false
  | some l => !l.isEmpty

/-- `k in view_data` on the optional argument (only evaluated under a
truthiness guard in the source). -/
def dict_has_key : Option (List (String × Yaml)) → String → Bool
  | none, _ => false
  | some l, k => (l.lookup k).isSome

/-- `view_data[k]` on the optional argument (only evaluated when the
key is present). -/
def dict_item : Option (List (String × Yaml)) → String → Yaml
  | none, _ => .null
  | some l, k => (l.lookup k).getD .null

/-- View Path Resolver: `get_view_file_paths(table_name, view_data)`
(`src/app.py` lines 120-139). -/
def get_view_file_paths (table_name : String)
    (view_data : Option (List (String × Yaml))) : List String :=
  let is_query := dict_truthy view_data && dict_has_key view_data "query"
  let view_suffix := if is_query then ".query.view" else ".view"
  if dict_truthy view_data && dict_has_key view_data "schema" then
    [py_str (dict_item view_data "schema") ++ "/" ++ table_name ++ view_suffix,
     table_name ++ view_suffix]
  else
    ["PUBLIC/" ++ table_name ++ view_suffix, table_name ++ view_suffix]
    ++ (if !dict_truthy view_data then
          ["PUBLIC/" ++ table_name ++ ".query.view",
           table_name ++ ".query.view"]
        else [])

/-- One file of the model bundle.  The raw text itself is opaque (the
YAML Decoder is an external collaborator); a file is recorded by the
outcome `yaml.safe_load` has on it: a decoded value, or a raised parse
error. -/
inductive PyFile where
  | ok : Yaml → PyFile
  | bad : PyFile

/-- `yaml.safe_load(all_files[k])` on a bundle file. -/
def safe_load : PyFile → Except PyErr Yaml
  | .ok y => .ok y
  | .bad => .error .yamlError

/-- A ModelBundle: file key to raw file content, in bundle key order. -/
abbrev Bundle := List (String × PyFile)

/-- The hardcoded first-pass candidate list of `collect_all_fields`
(`src/app.py` lines 146-147 and 169-170): unqualified name first, then
`PUBLIC/`-qualified, then the two `.query.view` variants. -/
def basic_paths (table : String) : List String :=
  [table ++ ".view", "PUBLIC/" ++ table ++ ".view",
   table ++ ".query.view", "PUBLIC/" ++ table ++ ".query.view"]

/-- `next((v for v in basic_paths if v in all_files), None)`: the
first-pass probe of the Field Collector. -/
def probe_view_file (table : String) (all_files : Bundle) : Option String :=
  (basic_paths table).find? (fun p => (all_files.lookup p).isSome)

/-- `next((v for v in get_view_file_paths(table, view_data) if v in
all_files), None)`: the second-pass (authoritative) resolution computed
from the decoded view (`src/app.py` lines 155-156 and 178-179). -/
def authoritative_view_file (table : String)
    (view_data : List (String × Yaml)) (all_files : Bundle) : Option String :=
  (get_view_file_paths table (some view_data)).find?
    (fun p => (all_files.lookup p).isSome)

/-- The per-table body shared by the base-table block and the join-walk
loop body of `collect_all_fields` (`src/app.py` lines 146-161 and
169-184): probe, decode, recompute the authoritative path (the result
is bound but used only in error logging), extract.  Every exception
raised inside the `try` block is caught and yields no fields. -/
def table_contribution (all_files : Bundle) (table : String) : List Field :=
  match probe_view_file table all_files with
  | none => []
  | some f =>
    match all_files.lookup f with
    | none => []
    | some content =>
      match safe_load content with
      | .error _ => []
      | .ok view_data =>
        match view_data with
        | .map m =>
          let _view_file := authoritative_view_file table m all_files
          match get_fields_from_view m table with
          | .ok fs => fs
          | .error _ => []
        | _ => []

mutual

/-- `process_joins(joins_data)` inside `collect_all_fields`
(`src/app.py` lines 163-188): non-dict levels contribute nothing; each
entry contributes its table's fields and then, if its value is a dict,
its nested joins, before the next sibling. -/
def process_joins (all_files : Bundle) : Yaml → List Field
  | .map entries => process_joins_entries all_files entries
  | _ => []

def process_joins_entries (all_files : Bundle) :
    List (String × Yaml) → List Field
  | [] => []
  | (table, join_info) :: rest =>
    table_contribution all_files table
    ++ (if join_info.isMap then process_joins all_files join_info else [])
    ++ process_joins_entries all_files rest

end

/-- Field Collector: `collect_all_fields(yaml_data, base_table,
all_files)` (`src/app.py` lines 141-194). -/
def collect_all_fields (yaml_data : List (String × Yaml))
    (base_table : String) (all_files : Bundle) : List Field :=
  table_contribution all_files base_table
  ++ (match yaml_data.lookup "joins" with
      | some j => process_joins all_files j
      | none => [])

/-- One `dot.node(...)` call recorded by the graph builder: node name
(also its label) and the two style attributes computed from the depth
counter. -/
structure GNode where
  name : String
  fillcolor : String
  fontcolor : String

/-- The Graphviz digraph as observed through its `node` and `edge`
calls, in call order (fixed graph/style attributes omitted). -/
structure Digraph where
  nodes : List GNode
  edges : List (String × String)

mutual

/-- `add_joins(parent_table, joins_data, depth)` inside
`create_join_graph` (`src/app.py` lines 44-72). -/
def add_joins (parent_table : String) (joins_data : Yaml) (depth : Nat)
    (dot : Digraph) : Digraph :=
  match joins_data with
  | .map entries => add_joins_entries parent_table entries depth dot
  | _ => dot

def add_joins_entries (parent_table : String)
    (entries : List (String × Yaml)) (depth : Nat) (dot : Digraph) : Digraph :=
  match entries with
  | [] => dot
  | (table, join_info) :: rest =>
    let colors := ["#6ba2f7", "#94bdf9", "#bcd8fb", "#e4f1fd"]
    let fillcolor := colors.getD (min depth (colors.length - 1)) ""
    let dot1 : Digraph :=
      { nodes := dot.nodes ++
          [{ name := table, fillcolor := fillcolor,
             fontcolor := if depth > 0 then "black" else "white" }],
        edges := dot.edges ++ [(parent_table, table)] }
    let dot2 :=
      if join_info.isMap then add_joins table join_info (depth + 1) dot1
      else dot1
    add_joins_entries parent_table rest depth dot2

end

/-- Join Graph Builder: `create_join_graph(yaml_data, base_table)`
(`src/app.py` lines 7-78).  The base table is added first with its
special styling; the `joins` mapping, when present, is walked by
`add_joins` starting at depth 0. -/
def create_join_graph (yaml_data : List (String × Yaml))
    (base_table : String) : Digraph :=
  let dot : Digraph :=
    { nodes := [{ name := base_table, fillcolor := "#4287f5",
                  fontcolor := "white" }],
      edges := [] }
  match yaml_data.lookup "joins" with
  | some j => add_joins base_table j 0 dot
  | none => dot

mutual

/-- Observer: the pre-order list of table names declared in a `joins`
tree (each table before its own nested joins, siblings in declaration
order). -/
def join_tables : Yaml → List String
  | .map entries => join_tables_entries entries
  | _ => []

def join_tables_entries : List (String × Yaml) → List String
  | [] => []
  | (t, ji) :: rest =>
    t :: (if ji.isMap then join_tables ji else []) ++ join_tables_entries rest

end

/-- Observer: the tables the Field Collector visits, in visit order:
the base table, then the join tree in pre-order. -/
def visited_tables (yaml_data : List (String × Yaml))
    (base_table : String) : List String :=
  base_table ::
    (match yaml_data.lookup "joins" with
     | some j => join_tables j
     | none => [])

mutual

/-- Spec-side definition (for the refinement claim C3), following the
spec's Join Graph Builder algorithm word for word: each entry of a
level's `joins` mapping is a node at depth = parent depth + 1, children
emitted after their parent, siblings in declared order. -/
def spec_join_nodes (parent_depth : Nat) : Yaml → List (String × Nat)
  | .map entries => spec_join_nodes_entries parent_depth entries
  | _ => []

def spec_join_nodes_entries (parent_depth : Nat) :
    List (String × Yaml) → List (String × Nat)
  | [] => []
  | (t, ji) :: rest =>
    (t, parent_depth + 1) ::
      (if ji.isMap then spec_join_nodes (parent_depth + 1) ji else [])
      ++ spec_join_nodes_entries parent_depth rest

end

mutual

/-- Spec-side definition (for claim C3): the (parent, child) edges of
the spec's Join Graph Builder algorithm, in emission order. -/
def spec_join_edges (parent : String) : Yaml → List (String × String)
  | .map entries => spec_join_edges_entries parent entries
  | _ => []

def spec_join_edges_entries (parent : String) :
    List (String × Yaml) → List (String × String)
  | [] => []
  | (t, ji) :: rest =>
    (parent, t) ::
      (if ji.isMap then spec_join_edges t ji else [])
      ++ spec_join_edges_entries parent rest

end

/-- Spec-side definition (for claim C3): the depth-tagged node list of
the whole topic — the base table at depth 0, then the `joins` tree. -/
def spec_graph_nodes (yaml_data : List (String × Yaml))
    (base_table : String) : List (String × Nat) :=
  (base_table, 0) ::
    (match yaml_data.lookup "joins" with
     | some j => spec_join_nodes 0 j
     | none => [])

/-- Spec-side definition (for claim C3): the edge list of the whole
topic. -/
def spec_graph_edges (yaml_data : List (String × Yaml))
    (base_table : String) : List (String × String) :=
  match yaml_data.lookup "joins" with
  | some j => spec_join_edges base_table j
  | none => []

/-- The styling `add_joins` applies to a node whose spec-side nesting
depth is `k` (the builder's `depth` counter equals `k - 1` there). -/
def styled (p : String × Nat) : GNode :=
  { name := p.1,
    fillcolor := ["#6ba2f7", "#94bdf9", "#bcd8fb", "#e4f1fd"].getD
      (min (p.2 - 1) 3) "",
    fontcolor := if p.2 - 1 > 0 then "black" else "white" }

/-- Claim-side definition (for claim C4), following the claim's words:
suffix is `.query.view` exactly when the supplied view data declares a
`query` key; with a declared schema, schema-qualified then bare; else
`PUBLIC/`-qualified then bare; the two `.query.view` candidates are
added exactly when no view data is supplied. -/
def claimed_view_file_paths (table_name : String)
    (view_data : Option (List (String × Yaml))) : List String :=
  let view_suffix :=
    match view_data with
    | some m => if (m.lookup "query").isSome then ".query.view" else ".view"
    | none => ".view"
  match view_data with
  | some m =>
    match m.lookup "schema" with
    | some sch => [py_str sch ++ "/" ++ table_name ++ view_suffix,
                   table_name ++ view_suffix]
    | none => ["PUBLIC/" ++ table_name ++ view_suffix,
               table_name ++ view_suffix]
  | none =>
    ["PUBLIC/" ++ table_name ++ view_suffix, table_name ++ view_suffix,
     "PUBLIC/" ++ table_name ++ ".query.view", table_name ++ ".query.view"]

/-- Amended claim-side definition (for claim C4): as
`claimed_view_file_paths`, but the two `.query.view` candidates are
added whenever the view data argument is absent or an empty mapping
(Python-falsy), matching the source's `if not view_data:`. -/
def amended_view_file_paths (table_name : String)
    (view_data : Option (List (String × Yaml))) : List String :=
  let view_suffix :=
    match view_data with
    | some m => if (m.lookup "query").isSome then ".query.view" else ".view"
    | none => ".view"
  match view_data with
  | some m =>
    match m.lookup "schema" with
    | some sch => [py_str sch ++ "/" ++ table_name ++ view_suffix,
                   table_name ++ view_suffix]
    | none =>
      ["PUBLIC/" ++ table_name ++ view_suffix, table_name ++ view_suffix]
      ++ (if m.isEmpty then
            ["PUBLIC/" ++ table_name ++ ".query.view",
             table_name ++ ".query.view"]
          else [])
  | none =>
    ["PUBLIC/" ++ table_name ++ ".view", table_name ++ ".view",
     "PUBLIC/" ++ table_name ++ ".query.view", table_name ++ ".query.view"]

/-- Observer: the declared dimension names of a view, in declaration
order (empty when `dimensions` is absent or not a mapping). -/
def dims_names (view_data : List (String × Yaml)) : List String :=
  match view_data.lookup "dimensions" with
  | some (.map l) => l.map Prod.fst
  | _ => []

/-- Observer: the declared measure names of a view, in declaration
order. -/
def meas_names (view_data : List (String × Yaml)) : List String :=
  match view_data.lookup "measures" with
  | some (.map l) => l.map Prod.fst
  | _ => []

/-- The topic mapping of the spec's Join Graph Builder example:
`{joins: {customers: {addresses: {}}}}`. -/
def topicC3 : List (String × Yaml) :=
  [("joins", Yaml.map [("customers", Yaml.map [("addresses", Yaml.map [])])])]

/-- The bundle used to witness claim C6: a well-formed base view, a
file that fails to decode, and a view whose dimension entry is a
non-mapping (so extraction raises); the table `"ghost"` has no file at
all. -/
def bundleC6 : Bundle :=
  [("orders.view", .ok (.map [("dimensions", .map [("o1", .map [])])])),
   ("badfile.view", .bad),
   ("badshape.view", .ok (.map [("dimensions", .map [("x", .null)])])),
   ("customers.view", .ok (.map [("dimensions", .map [("c1", .map [])])]))]

/-- The topic used to witness claim C6. -/
def topicC6 : List (String × Yaml) :=
  [("joins", Yaml.map [("badfile", Yaml.map []), ("ghost", Yaml.map []),
    ("badshape", Yaml.map []), ("customers", Yaml.map [])])]

/-- The view stored under `"PUBLIC/orders.view"` in the bundle refuting
claim C2. -/
def view_public_C2 : List (String × Yaml) :=
  [("dimensions", Yaml.map [("from_public", Yaml.map [])])]

/-- A bundle holding both `"PUBLIC/orders.view"` and `"orders.view"`,
with distinguishable fields. -/
def bundleC2 : Bundle :=
  [("PUBLIC/orders.view", .ok (.map view_public_C2)),
   ("orders.view",
    .ok (.map [("dimensions", Yaml.map [("from_plain", Yaml.map [])])]))]

/-- The view stored under `"orders.view"` in the bundle refuting claim
C1: it declares `schema: MYSCHEMA`, so the authoritative second-pass
path is `"MYSCHEMA/orders.view"`. -/
def view_plain_C1 : List (String × Yaml) :=
  [("schema", Yaml.str "MYSCHEMA"),
   ("dimensions", Yaml.map [("from_plain", Yaml.map [])])]

/-- The view stored under the authoritative path
`"MYSCHEMA/orders.view"`. -/
def view_auth_C1 : List (String × Yaml) :=
  [("dimensions", Yaml.map [("from_auth", Yaml.map [])])]

/-- A bundle in which the first-pass probe and the recomputed
authoritative path resolve to different existing keys. -/
def bundleC1 : Bundle :=
  [("orders.view", .ok (.map view_plain_C1)),
   ("MYSCHEMA/orders.view", .ok (.map view_auth_C1))]

mutual

theorem add_joins_spec (parent : String) (j : Yaml) (d : Nat) (dot : Digraph) :
    add_joins parent j d dot =
      { nodes := dot.nodes ++ (spec_join_nodes d j).map styled,
        edges := dot.edges ++ spec_join_edges parent j } := by
  match j with
  | .map entries =>
    rw [show add_joins parent (.map entries) d dot =
          add_joins_entries parent entries d dot from rfl]
    rw [add_joins_entries_spec parent entries d dot]
    simp [spec_join_nodes, spec_join_edges]
  | .str s => simp [add_joins, spec_join_nodes, spec_join_edges]
  | .int n => simp [add_joins, spec_join_nodes, spec_join_edges]
  | .bool b => simp [add_joins, spec_join_nodes, spec_join_edges]
  | .null => simp [add_joins, spec_join_nodes, spec_join_edges]
  | .seq l => simp [add_joins, spec_join_nodes, spec_join_edges]

theorem add_joins_entries_spec (parent : String)
    (es : List (String × Yaml)) (d : Nat) (dot : Digraph) :
    add_joins_entries parent es d dot =
      { nodes := dot.nodes ++ (spec_join_nodes_entries d es).map styled,
        edges := dot.edges ++ spec_join_edges_entries parent es } := by
  match es with
  | [] => simp [add_joins_entries, spec_join_nodes_entries, spec_join_edges_entries]
  | (t, ji) :: rest =>
    rw [show add_joins_entries parent ((t, ji) :: rest) d dot =
          add_joins_entries parent rest d
            (if ji.isMap then
              add_joins t ji (d + 1)
                { nodes := dot.nodes ++
                    [{ name := t,
                       fillcolor :=
                         ["#6ba2f7", "#94bdf9", "#bcd8fb", "#e4f1fd"].getD
                           (min d (["#6ba2f7", "#94bdf9", "#bcd8fb",
                                    "#e4f1fd"].length - 1)) "",
                       fontcolor := if d > 0 then "black" else "white" }],
                  edges := dot.edges ++ [(parent, t)] }
            else
              { nodes := dot.nodes ++
                  [{ name := t,
                     fillcolor :=
                       ["#6ba2f7", "#94bdf9", "#bcd8fb", "#e4f1fd"].getD
                         (min d (["#6ba2f7", "#94bdf9", "#bcd8fb",
                                  "#e4f1fd"].length - 1)) "",
                     fontcolor := if d > 0 then "black" else "white" }],
                edges := dot.edges ++ [(parent, t)] }) from rfl]
    by_cases h : ji.isMap
    · rw [if_pos h, add_joins_spec t ji (d + 1) _,
          add_joins_entries_spec parent rest d _]
      simp [spec_join_nodes_entries, spec_join_edges_entries, h, styled]
    · rw [if_neg h, add_joins_entries_spec parent rest d _]
      simp [spec_join_nodes_entries, spec_join_edges_entries, h, styled]

end

theorem styled_name (p : String × Nat) : (styled p).name = p.1 := rfl

theorem create_join_graph_spec (topic : List (String × Yaml)) (base : String) :
    create_join_graph topic base =
      { nodes := { name := base, fillcolor := "#4287f5", fontcolor := "white" }
          :: ((spec_graph_nodes topic base).tail).map styled,
        edges := spec_graph_edges topic base } := by
  cases h : topic.lookup "joins" with
  | none => simp [create_join_graph, spec_graph_nodes, spec_graph_edges, h]
  | some j =>
    simp [create_join_graph, spec_graph_nodes, spec_graph_edges, h,
      add_joins_spec]

theorem create_join_graph_names (topic : List (String × Yaml)) (base : String) :
    (create_join_graph topic base).nodes.map GNode.name =
      (spec_graph_nodes topic base).map Prod.fst := by
  rw [create_join_graph_spec]
  have h : spec_graph_nodes topic base =
      (base, 0) :: (spec_graph_nodes topic base).tail := by
    unfold spec_graph_nodes; rfl
  conv_rhs => rw [h]
  simp [List.map_map]
  rfl

/-- Claim C3: on `{joins: {customers: {addresses: {}}}}` with base
`"orders"` the Join Graph Builder emits nodes in pre-order with depths
`[("orders",0), ("customers",1), ("addresses",2)]` and edges
`[("orders","customers"), ("customers","addresses")]`, and in general
the emitted node sequence and edge sequence coincide with the
depth-tagged pre-order walk in which each `joins` entry sits at its
parent's depth plus one. -/
theorem C3_join_graph_builder :
    (∀ (topic : List (String × Yaml)) (base : String),
      (create_join_graph topic base).nodes.map GNode.name =
        (spec_graph_nodes topic base).map Prod.fst
      ∧ (create_join_graph topic base).edges = spec_graph_edges topic base)
    ∧ spec_graph_nodes topicC3 "orders" =
        [("orders", 0), ("customers", 1), ("addresses", 2)]
    ∧ spec_graph_edges topicC3 "orders" =
        [("orders", "customers"), ("customers", "addresses")]
    ∧ (create_join_graph topicC3 "orders").nodes.map GNode.name =
        ["orders", "customers", "addresses"]
    ∧ (create_join_graph topicC3 "orders").edges =
        [("orders", "customers"), ("customers", "addresses")] := by
  refine ⟨fun topic base => ⟨create_join_graph_names topic base, ?_⟩,
    rfl, rfl, rfl, rfl⟩
  rw [create_join_graph_spec]

/-- Claim C7: a topic whose `joins` key is absent, or present with a
non-mapping value, yields the base node alone (with the base styling)
and zero edges. -/
theorem C7_no_joins (topic : List (String × Yaml)) (base : String)
    (h : topic.lookup "joins" = none
      ∨ ∃ v, topic.lookup "joins" = some v ∧ v.isMap = false) :
    create_join_graph topic base =
      { nodes := [{ name := base, fillcolor := "#4287f5",
                    fontcolor := "white" }],
        edges := [] } := by
  rcases h with h | ⟨v, hv, hm⟩
  · unfold create_join_graph; rw [h]
  · unfold create_join_graph
    rw [hv]
    cases v with
    | map l => simp [Yaml.isMap] at hm
    | str s => rfl
    | int n => rfl
    | bool b => rfl
    | null => rfl
    | seq l => rfl

/-- Witness for claim C7 at a topic whose `joins` value is a scalar. -/
theorem C7_no_joins_witness :
    create_join_graph [("joins", Yaml.str "oops")] "orders" =
      { nodes := [{ name := "orders", fillcolor := "#4287f5",
                    fontcolor := "white" }],
        edges := [] } :=
  C7_no_joins [("joins", Yaml.str "oops")] "orders"
    (Or.inr ⟨Yaml.str "oops", rfl, rfl⟩)

mutual

theorem process_joins_flatMap (files : Bundle) (j : Yaml) :
    process_joins files j =
      (join_tables j).flatMap (table_contribution files) := by
  match j with
  | .map entries =>
    rw [show process_joins files (.map entries) =
          process_joins_entries files entries from rfl]
    rw [process_joins_entries_flatMap files entries]
    simp [join_tables]
  | .str s => simp [process_joins, join_tables]
  | .int n => simp [process_joins, join_tables]
  | .bool b => simp [process_joins, join_tables]
  | .null => simp [process_joins, join_tables]
  | .seq l => simp [process_joins, join_tables]

theorem process_joins_entries_flatMap (files : Bundle)
    (es : List (String × Yaml)) :
    process_joins_entries files es =
      (join_tables_entries es).flatMap (table_contribution files) := by
  match es with
  | [] => simp [process_joins_entries, join_tables_entries]
  | (t, ji) :: rest =>
    rw [show process_joins_entries files ((t, ji) :: rest) =
          table_contribution files t
          ++ (if ji.isMap then process_joins files ji else [])
          ++ process_joins_entries files rest from rfl]
    rw [process_joins_entries_flatMap files rest]
    by_cases h : ji.isMap
    · rw [if_pos h, process_joins_flatMap files ji]
      simp [join_tables_entries, h]
    · rw [if_neg h]
      simp [join_tables_entries, h]

end

theorem collect_all_fields_flatMap (topic : List (String × Yaml))
    (base : String) (files : Bundle) :
    collect_all_fields topic base files =
      (visited_tables topic base).flatMap (table_contribution files) := by
  cases h : topic.lookup "joins" with
  | none => simp [collect_all_fields, visited_tables, h]
  | some j =>
    simp [collect_all_fields, visited_tables, h, process_joins_flatMap]

/-- Claim C6: an unresolvable join-tree table contributes zero field
records without aborting; a decode failure or an extraction exception
for one table's view is caught, that table contributing nothing, while
the collection is the concatenation of the per-table contributions over
the base table and the pre-order join walk — so the remaining tables
still contribute. -/
theorem C6_error_handling (files : Bundle) (t f : String)
    (m : List (String × Yaml)) (e : PyErr)
    (topic : List (String × Yaml)) (base : String) :
    (probe_view_file t files = none → table_contribution files t = [])
    ∧ (probe_view_file t files = some f → files.lookup f = some PyFile.bad →
        table_contribution files t = [])
    ∧ (probe_view_file t files = some f →
        files.lookup f = some (PyFile.ok (Yaml.map m)) →
        get_fields_from_view m t = Except.error e →
        table_contribution files t = [])
    ∧ collect_all_fields topic base files =
        (visited_tables topic base).flatMap (table_contribution files) := by
  refine ⟨?_, ?_, ?_, collect_all_fields_flatMap topic base files⟩
  · intro h
    simp [table_contribution, h]
  · intro h1 h2
    simp [table_contribution, h1, h2, safe_load]
  · intro h1 h2 h3
    simp [table_contribution, h1, h2, h3, safe_load]

/-- Witness for claim C6: the unresolvable, undecodable and
unextractable tables each contribute nothing, and the collection still
covers the remaining tables (the walk completes with the base table's
and `"customers"`' fields). -/
theorem C6_error_handling_witness :
    table_contribution bundleC6 "ghost" = []
    ∧ table_contribution bundleC6 "badfile" = []
    ∧ table_contribution bundleC6 "badshape" = []
    ∧ collect_all_fields topicC6 "orders" bundleC6 =
        (visited_tables topicC6 "orders").flatMap (table_contribution bundleC6)
    ∧ (collect_all_fields topicC6 "orders" bundleC6).map Field.name =
        ["o1", "c1"] := by
  have h := C6_error_handling bundleC6 "ghost" "badfile.view"
    [("dimensions", .map [("x", .null)])] PyErr.attributeError topicC6 "orders"
  have h2 := C6_error_handling bundleC6 "badfile" "badfile.view"
    [("dimensions", .map [("x", .null)])] PyErr.attributeError topicC6 "orders"
  have h3 := C6_error_handling bundleC6 "badshape" "badshape.view"
    [("dimensions", .map [("x", .null)])] PyErr.attributeError topicC6 "orders"
  exact ⟨h.1 rfl, h2.2.1 rfl rfl, h3.2.2.1 rfl rfl rfl, h.2.2.2, rfl⟩

/-- Counterexample to claim C2: with both `"PUBLIC/orders.view"` and
`"orders.view"` present, the first key in View Path Resolver order is
`"PUBLIC/orders.view"` (whose fields are `["from_public"]`), yet the
collector's first-pass probe loads `"orders.view"` and the collected
fields are `["from_plain"]` — the probe does not follow the resolver
order. -/
theorem C2_probe_order_counterexample :
    ((get_view_file_paths "orders" none).find?
        (fun p => (bundleC2.lookup p).isSome) = some "PUBLIC/orders.view")
    ∧ (get_fields_from_view view_public_C2 "orders").map
        (List.map Field.name) = Except.ok ["from_public"]
    ∧ probe_view_file "orders" bundleC2 = some "orders.view"
    ∧ (collect_all_fields [] "orders" bundleC2).map Field.name =
        ["from_plain"]
    ∧ ("from_plain" : String) ≠ "from_public" := by
  refine ⟨rfl, rfl, rfl, rfl, ?_⟩
  decide

/-- Claim C2 as amended: for every table visited by the Field Collector
(the base table, then the join tree in pre-order), the first-pass probe
tries the bundle keys in exactly the hardcoded order `{table}.view`,
`PUBLIC/{table}.view`, `{table}.query.view`, `PUBLIC/{table}.query.view`
— the unqualified candidate first, not the View Path Resolver order —
and loads the first key present in the bundle. -/
theorem C2_probe_order_amended (topic : List (String × Yaml))
    (base : String) (files : Bundle) :
    collect_all_fields topic base files =
      (visited_tables topic base).flatMap (table_contribution files)
    ∧ (∀ t, probe_view_file t files =
        ((t ++ ".view") :: ("PUBLIC/" ++ t ++ ".view") ::
         (t ++ ".query.view") :: ("PUBLIC/" ++ t ++ ".query.view") ::
         []).find? (fun p => (files.lookup p).isSome)) :=
  ⟨collect_all_fields_flatMap topic base files, fun _ => rfl⟩

/-- Counterexample to claim C1: the probe loads `"orders.view"`, the
recomputed authoritative path is the distinct existing key
`"MYSCHEMA/orders.view"` (whose fields are `["from_auth"]`), yet the
collected fields are `["from_plain"]` — extraction uses the first-pass
decoded content, not the content under the authoritative path. -/
theorem C1_recompute_counterexample :
    probe_view_file "orders" bundleC1 = some "orders.view"
    ∧ authoritative_view_file "orders" view_plain_C1 bundleC1 =
        some "MYSCHEMA/orders.view"
    ∧ ("MYSCHEMA/orders.view" : String) ≠ "orders.view"
    ∧ (get_fields_from_view view_auth_C1 "orders").map
        (List.map Field.name) = Except.ok ["from_auth"]
    ∧ (collect_all_fields [] "orders" bundleC1).map Field.name =
        ["from_plain"]
    ∧ ("from_plain" : String) ≠ "from_auth" := by
  refine ⟨rfl, rfl, by decide, rfl, rfl, by decide⟩

/-- Claim C1 as amended: after the first-pass probe decodes a matching
view file, the authoritative candidate path is recomputed from the
decoded view's schema/query keys (the source binds it, using it only in
error logging), but the fields contributed for the table are extracted
from the first-pass decoded content even when the authoritative path
differs from the probed key and exists in the bundle. -/
theorem C1_recompute_amended (files : Bundle) (t f f' : String)
    (m : List (String × Yaml)) (fs : List Field)
    (hprobe : probe_view_file t files = some f)
    (hfile : files.lookup f = some (PyFile.ok (Yaml.map m)))
    (_hauth : authoritative_view_file t m files = some f')
    (_hne : f' ≠ f)
    (hext : get_fields_from_view m t = Except.ok fs) :
    table_contribution files t = fs := by
  simp [table_contribution, hprobe, hfile, safe_load, hext]

/-- Witness for claim C1's amended theorem, at the counterexample
bundle: the contribution of `"orders"` is the field list extracted from
the first-pass file `"orders.view"`. -/
theorem C1_recompute_witness :
    (table_contribution bundleC1 "orders").map Field.name =
      ["from_plain"] := by
  rw [C1_recompute_amended bundleC1 "orders" "orders.view"
    "MYSCHEMA/orders.view" view_plain_C1
    [{ name := "from_plain", type := "Dimension",
       sql := Yaml.str "", description := Yaml.str "",
       source_table := "orders",
       full_definition := yaml_dump "from_plain" (Yaml.map []) }]
    rfl rfl rfl (by decide) rfl]
  rfl

/-- Counterexample to claim C4: for a supplied-but-empty view mapping
the source still appends the two `.query.view` candidates (its guard is
`if not view_data:`, Python-falsy), whereas the claim adds them only
when no view data is supplied. -/
theorem C4_resolver_counterexample :
    get_view_file_paths "orders" (some []) =
      ["PUBLIC/orders.view", "orders.view",
       "PUBLIC/orders.query.view", "orders.query.view"]
    ∧ claimed_view_file_paths "orders" (some []) =
        ["PUBLIC/orders.view", "orders.view"]
    ∧ get_view_file_paths "orders" (some []) ≠
        claimed_view_file_paths "orders" (some []) := by
  have h1 : get_view_file_paths "orders" (some []) =
      ["PUBLIC/orders.view", "orders.view",
       "PUBLIC/orders.query.view", "orders.query.view"] := rfl
  have h2 : claimed_view_file_paths "orders" (some []) =
      ["PUBLIC/orders.view", "orders.view"] := rfl
  refine ⟨h1, h2, ?_⟩
  rw [h1, h2]
  decide

/-- Claim C4 as amended: the candidate list is as claimed except that
the two extra `.query.view` candidates are appended whenever the view
data argument is absent or an empty mapping (Python-falsy), not only
when it is absent; in particular `get_view_file_paths("orders", None)`
is exactly `["PUBLIC/orders.view", "orders.view",
"PUBLIC/orders.query.view", "orders.query.view"]`. -/
theorem C4_resolver_amended :
    (∀ (t : String) (vd : Option (List (String × Yaml))),
      get_view_file_paths t vd = amended_view_file_paths t vd)
    ∧ get_view_file_paths "orders" none =
        ["PUBLIC/orders.view", "orders.view",
         "PUBLIC/orders.query.view", "orders.query.view"] := by
  refine ⟨?_, rfl⟩
  intro t vd
  match vd with
  | none => rfl
  | some [] => rfl
  | some (p :: tl) =>
    cases hs : (p :: tl).lookup "schema" with
    | none =>
      cases hq : (p :: tl).lookup "query" with
      | none =>
        simp [get_view_file_paths, amended_view_file_paths, dict_truthy,
          dict_has_key, dict_item, hs, hq]
      | some q =>
        simp [get_view_file_paths, amended_view_file_paths, dict_truthy,
          dict_has_key, dict_item, hs, hq]
    | some sch =>
      cases hq : (p :: tl).lookup "query" with
      | none =>
        simp [get_view_file_paths, amended_view_file_paths, dict_truthy,
          dict_has_key, dict_item, hs, hq]
      | some q =>
        simp [get_view_file_paths, amended_view_file_paths, dict_truthy,
          dict_has_key, dict_item, hs, hq]

/-- Claim C5: the measure SQL composition rules — aggregate with a
non-empty SQL expression wraps it, aggregate alone stands bare, and no
aggregate leaves the bare SQL expression (empty string when absent) —
with the spec's two concrete measure examples. -/
theorem C5_measure_sql :
    (∀ (src nm a s : String) (fd : List (String × Yaml)),
      (fd.lookup "aggregate_type" = some (.str a) → a ≠ "" →
        fd.lookup "sql" = some (.str s) → s ≠ "" →
        (measure_field src nm (.map fd)).map Field.sql =
          .ok (.str (a ++ "(" ++ s ++ ")")))
      ∧ (fd.lookup "aggregate_type" = some (.str a) → a ≠ "" →
          fd.lookup "sql" = none →
          (measure_field src nm (.map fd)).map Field.sql = .ok (.str a))
      ∧ (fd.lookup "aggregate_type" = none →
          (measure_field src nm (.map fd)).map Field.sql =
            .ok ((fd.lookup "sql").getD (.str ""))))
    ∧ (get_fields_from_view [("measures", .map [("total_amount", .map
        [("sql", .str "amount"), ("aggregate_type", .str "sum")])])]
        "t").map (List.map Field.sql) = .ok [.str "sum(amount)"]
    ∧ (get_fields_from_view [("measures", .map [("row_count", .map
        [("aggregate_type", .str "count")])])] "t").map
        (List.map Field.sql) = .ok [.str "count"] := by
  refine ⟨fun src nm a s fd => ⟨?_, ?_, ?_⟩, rfl, rfl⟩
  · intro hagg ha hsql hs
    simp [measure_field, py_get, py_truthy, py_str, hagg, hsql, ha, hs,
      Except.map]
  · intro hagg ha hsql
    simp [measure_field, py_get, py_truthy, py_str, hagg, hsql, ha,
      Except.map]
  · intro hagg
    simp [measure_field, py_get, py_truthy, py_str, hagg, Except.map]

/-- Witness for claim C5: each of the three composition rules applied
at a concrete measure. -/
theorem C5_measure_sql_witness :
    (measure_field "t" "m1" (.map [("sql", .str "amount"),
      ("aggregate_type", .str "sum")])).map Field.sql =
        .ok (.str "sum(amount)")
    ∧ (measure_field "t" "m2" (.map [("aggregate_type",
        .str "count")])).map Field.sql = .ok (.str "count")
    ∧ (measure_field "t" "m3" (.map [("sql", .str "price")])).map
        Field.sql = .ok (.str "price") := by
  have h1 := (C5_measure_sql.1 "t" "m1" "sum" "amount"
    [("sql", .str "amount"), ("aggregate_type", .str "sum")]).1
    rfl (by decide) rfl (by decide)
  have h2 := (C5_measure_sql.1 "t" "m2" "count" ""
    [("aggregate_type", .str "count")]).2.1 rfl (by decide) rfl
  have h3 := (C5_measure_sql.1 "t" "m3" "" ""
    [("sql", .str "price")]).2.2 rfl
  exact ⟨h1, h2, h3⟩

theorem dimension_field_shape (src n : String) (d : Yaml) (f : Field)
    (h : dimension_field src n d = .ok f) :
    f.name = n ∧ f.type = "Dimension" := by
  unfold dimension_field at h
  cases h1 : py_get d "sql" (.str "") with
  | error e => rw [h1] at h; cases h
  | ok sql =>
    rw [h1] at h
    cases h2 : py_get d "description" (.str "") with
    | error e => rw [h2] at h; cases h
    | ok descr =>
      rw [h2] at h
      cases h
      exact ⟨rfl, rfl⟩

theorem measure_field_shape (src n : String) (d : Yaml) (f : Field)
    (h : measure_field src n d = .ok f) :
    f.name = n ∧ f.type = "Measure" := by
  unfold measure_field at h
  cases h1 : py_get d "sql" (.str "") with
  | error e => rw [h1] at h; cases h
  | ok sql =>
    rw [h1] at h
    cases h2 : py_get d "aggregate_type" (.str "") with
    | error e => rw [h2] at h; cases h
    | ok agg =>
      rw [h2] at h
      cases h3 : py_get d "description" (.str "") with
      | error e => rw [h3] at h; cases h
      | ok descr =>
        rw [h3] at h
        cases h
        exact ⟨rfl, rfl⟩

theorem dimension_fields_shape (src : String) :
    ∀ (l : List (String × Yaml)) (ds : List Field),
    dimension_fields src l = .ok ds →
    ds.map Field.name = l.map Prod.fst ∧ ∀ x ∈ ds, x.type = "Dimension" := by
  intro l
  induction l with
  | nil =>
    intro ds h
    rw [show dimension_fields src [] = .ok [] from rfl] at h
    cases h
    simp
  | cons p tl ih =>
    intro ds h
    obtain ⟨n, d⟩ := p
    rw [show dimension_fields src ((n, d) :: tl) =
      (match dimension_field src n d with
       | .error e => .error e
       | .ok f =>
         match dimension_fields src tl with
         | .error e => .error e
         | .ok fs => .ok (f :: fs)) from rfl] at h
    cases hf : dimension_field src n d with
    | error e => rw [hf] at h; cases h
    | ok f =>
      rw [hf] at h
      cases hrest : dimension_fields src tl with
      | error e => rw [hrest] at h; cases h
      | ok fs =>
        rw [hrest] at h
        cases h
        obtain ⟨ihn, iht⟩ := ih fs hrest
        obtain ⟨hn, ht⟩ := dimension_field_shape src n d f hf
        refine ⟨by simp [hn, ihn], ?_⟩
        intro x hx
        rcases List.mem_cons.mp hx with hx | hx
        · rw [hx]; exact ht
        · exact iht x hx

theorem measure_fields_shape (src : String) :
    ∀ (l : List (String × Yaml)) (ms : List Field),
    measure_fields src l = .ok ms →
    ms.map Field.name = l.map Prod.fst ∧ ∀ x ∈ ms, x.type = "Measure" := by
  intro l
  induction l with
  | nil =>
    intro ms h
    rw [show measure_fields src [] = .ok [] from rfl] at h
    cases h
    simp
  | cons p tl ih =>
    intro ms h
    obtain ⟨n, d⟩ := p
    rw [show measure_fields src ((n, d) :: tl) =
      (match measure_field src n d with
       | .error e => .error e
       | .ok f =>
         match measure_fields src tl with
         | .error e => .error e
         | .ok fs => .ok (f :: fs)) from rfl] at h
    cases hf : measure_field src n d with
    | error e => rw [hf] at h; cases h
    | ok f =>
      rw [hf] at h
      cases hrest : measure_fields src tl with
      | error e => rw [hrest] at h; cases h
      | ok fs =>
        rw [hrest] at h
        cases h
        obtain ⟨ihn, iht⟩ := ih fs hrest
        obtain ⟨hn, ht⟩ := measure_field_shape src n d f hf
        refine ⟨by simp [hn, ihn], ?_⟩
        intro x hx
        rcases List.mem_cons.mp hx with hx | hx
        · rw [hx]; exact ht
        · exact iht x hx

theorem dims_part_shape (v : List (String × Yaml)) (src : String)
    (ds : List Field) (h : dims_part v src = .ok ds) :
    ds.map Field.name = dims_names v ∧ ∀ x ∈ ds, x.type = "Dimension" := by
  unfold dims_part at h
  unfold dims_names
  cases hd : v.lookup "dimensions" with
  | none => rw [hd] at h; cases h; simp
  | some d =>
    rw [hd] at h
    cases d with
    | map l =>
      have h' : dimension_fields src l = Except.ok ds := h
      exact dimension_fields_shape src l ds h'
    | str s => cases h
    | int n => cases h
    | bool b => cases h
    | null => cases h
    | seq l => cases h

theorem meas_part_shape (v : List (String × Yaml)) (src : String)
    (ms : List Field) (h : meas_part v src = .ok ms) :
    ms.map Field.name = meas_names v ∧ ∀ x ∈ ms, x.type = "Measure" := by
  unfold meas_part at h
  unfold meas_names
  cases hd : v.lookup "measures" with
  | none => rw [hd] at h; cases h; simp
  | some d =>
    rw [hd] at h
    cases d with
    | map l =>
      have h' : measure_fields src l = Except.ok ms := h
      exact measure_fields_shape src l ms h'
    | str s => cases h
    | int n => cases h
    | bool b => cases h
    | null => cases h
    | seq l => cases h

/-- Claim C8: a successful extraction lists all dimension records
before all measure records, each group in the view's declared mapping
order of field names. -/
theorem C8_field_order (v : List (String × Yaml)) (src : String)
    (fs : List Field) (h : get_fields_from_view v src = .ok fs) :
    ∃ ds ms, fs = ds ++ ms
      ∧ ds.map Field.name = dims_names v
      ∧ ms.map Field.name = meas_names v
      ∧ (∀ x ∈ ds, x.type = "Dimension")
      ∧ (∀ x ∈ ms, x.type = "Measure") := by
  unfold get_fields_from_view at h
  cases hd : dims_part v src with
  | error e => rw [hd] at h; cases h
  | ok ds =>
    rw [hd] at h
    cases hm : meas_part v src with
    | error e => rw [hm] at h; cases h
    | ok ms =>
      rw [hm] at h
      cases h
      obtain ⟨h1, h2⟩ := dims_part_shape v src ds hd
      obtain ⟨h3, h4⟩ := meas_part_shape v src ms hm
      exact ⟨ds, ms, rfl, h1, h3, h2, h4⟩

/-- Witness for claim C8 at a view declaring two dimensions and one
measure, with `measures` listed before `dimensions` in the mapping. -/
theorem C8_field_order_witness :
    ∃ ds ms,
      (match get_fields_from_view
          [("measures", .map [("m1", .map [])]),
           ("dimensions", .map [("d1", .map []), ("d2", .map [])])] "t" with
        | .ok fs => fs
        | .error _ => []) = ds ++ ms
      ∧ ds.map Field.name = ["d1", "d2"]
      ∧ ms.map Field.name = ["m1"]
      ∧ (∀ x ∈ ds, x.type = "Dimension")
      ∧ (∀ x ∈ ms, x.type = "Measure") := by
  have h := C8_field_order
    [("measures", .map [("m1", .map [])]),
     ("dimensions", .map [("d1", .map []), ("d2", .map [])])] "t"
    (match get_fields_from_view
        [("measures", .map [("m1", .map [])]),
         ("dimensions", .map [("d1", .map []), ("d2", .map [])])] "t" with
      | .ok fs => fs
      | .error _ => [])
    rfl
  obtain ⟨ds, ms, h1, h2, h3, h4, h5⟩ := h
  refine ⟨ds, ms, h1, ?_, ?_, h4, h5⟩
  · rw [h2]; rfl
  · rw [h3]; rfl

/-- Counterexample to claim C9: a view whose `dimensions` value is a
mapping but whose field entry `a` is null makes the Field Extractor
raise `AttributeError` (from `field_def.get`) instead of falling back
gracefully. -/
theorem C9_shape_check_counterexample :
    get_fields_from_view [("dimensions", Yaml.map [("a", Yaml.null)])] "t" =
      .error .attributeError := rfl

theorem py_get_error (y : Yaml) (k : String) (dflt : Yaml) (e : PyErr)
    (h : py_get y k dflt = .error e) : e = .attributeError := by
  cases y with
  | map l => cases h
  | str s => exact (Except.error.inj h).symm
  | int n => exact (Except.error.inj h).symm
  | bool b => exact (Except.error.inj h).symm
  | null => exact (Except.error.inj h).symm
  | seq l => exact (Except.error.inj h).symm

theorem dimension_field_ok (src n : String) (d : Yaml) (h : d.isMap = true) :
    ∃ f, dimension_field src n d = .ok f := by
  cases d with
  | map l => exact ⟨_, rfl⟩
  | str s => simp [Yaml.isMap] at h
  | int m => simp [Yaml.isMap] at h
  | bool b => simp [Yaml.isMap] at h
  | null => simp [Yaml.isMap] at h
  | seq l => simp [Yaml.isMap] at h

theorem measure_field_ok (src n : String) (d : Yaml) (h : d.isMap = true) :
    ∃ f, measure_field src n d = .ok f := by
  cases d with
  | map l => exact ⟨_, rfl⟩
  | str s => simp [Yaml.isMap] at h
  | int m => simp [Yaml.isMap] at h
  | bool b => simp [Yaml.isMap] at h
  | null => simp [Yaml.isMap] at h
  | seq l => simp [Yaml.isMap] at h

theorem dimension_field_bad (src n : String) (d : Yaml) (h : d.isMap = false) :
    dimension_field src n d = .error .attributeError := by
  cases d with
  | map l => simp [Yaml.isMap] at h
  | str s => rfl
  | int m => rfl
  | bool b => rfl
  | null => rfl
  | seq l => rfl

theorem measure_field_bad (src n : String) (d : Yaml) (h : d.isMap = false) :
    measure_field src n d = .error .attributeError := by
  cases d with
  | map l => simp [Yaml.isMap] at h
  | str s => rfl
  | int m => rfl
  | bool b => rfl
  | null => rfl
  | seq l => rfl

theorem dimension_fields_bad (src : String) :
    ∀ (l : List (String × Yaml)), (∃ p ∈ l, p.2.isMap = false) →
    dimension_fields src l = .error .attributeError := by
  intro l
  induction l with
  | nil =>
    rintro ⟨p, hp, _⟩
    exact absurd hp (List.not_mem_nil p)
  | cons q tl ih =>
    rintro ⟨p, hp, hbad⟩
    obtain ⟨n, d⟩ := q
    cases hd : d.isMap with
    | false =>
      rw [show dimension_fields src ((n, d) :: tl) =
        (match dimension_field src n d with
         | .error e => .error e
         | .ok f =>
           match dimension_fields src tl with
           | .error e => .error e
           | .ok fs => .ok (f :: fs)) from rfl]
      rw [dimension_field_bad src n d hd]
    | true =>
      obtain ⟨f, hf⟩ := dimension_field_ok src n d hd
      have hrest : ∃ p ∈ tl, p.2.isMap = false := by
        rcases List.mem_cons.mp hp with he | hm
        · exfalso
          rw [he] at hbad
          simp at hbad
          simp [hbad] at hd
        · exact ⟨p, hm, hbad⟩
      rw [show dimension_fields src ((n, d) :: tl) =
        (match dimension_field src n d with
         | .error e => .error e
         | .ok f =>
           match dimension_fields src tl with
           | .error e => .error e
           | .ok fs => .ok (f :: fs)) from rfl]
      rw [hf, ih hrest]

theorem measure_fields_bad (src : String) :
    ∀ (l : List (String × Yaml)), (∃ p ∈ l, p.2.isMap = false) →
    measure_fields src l = .error .attributeError := by
  intro l
  induction l with
  | nil =>
    rintro ⟨p, hp, _⟩
    exact absurd hp (List.not_mem_nil p)
  | cons q tl ih =>
    rintro ⟨p, hp, hbad⟩
    obtain ⟨n, d⟩ := q
    cases hd : d.isMap with
    | false =>
      rw [show measure_fields src ((n, d) :: tl) =
        (match measure_field src n d with
         | .error e => .error e
         | .ok f =>
           match measure_fields src tl with
           | .error e => .error e
           | .ok fs => .ok (f :: fs)) from rfl]
      rw [measure_field_bad src n d hd]
    | true =>
      obtain ⟨f, hf⟩ := measure_field_ok src n d hd
      have hrest : ∃ p ∈ tl, p.2.isMap = false := by
        rcases List.mem_cons.mp hp with he | hm
        · exfalso
          rw [he] at hbad
          simp at hbad
          simp [hbad] at hd
        · exact ⟨p, hm, hbad⟩
      rw [show measure_fields src ((n, d) :: tl) =
        (match measure_field src n d with
         | .error e => .error e
         | .ok f =>
           match measure_fields src tl with
           | .error e => .error e
           | .ok fs => .ok (f :: fs)) from rfl]
      rw [hf, ih hrest]

theorem dimension_field_error (src n : String) (d : Yaml) (e : PyErr)
    (h : dimension_field src n d = .error e) : e = .attributeError := by
  unfold dimension_field at h
  cases h1 : py_get d "sql" (.str "") with
  | error e1 =>
    rw [h1] at h
    rw [← Except.error.inj h]
    exact py_get_error d "sql" (.str "") e1 h1
  | ok sql =>
    rw [h1] at h
    cases h2 : py_get d "description" (.str "") with
    | error e2 =>
      rw [h2] at h
      rw [← Except.error.inj h]
      exact py_get_error d "description" (.str "") e2 h2
    | ok descr =>
      rw [h2] at h
      cases h

theorem dimension_fields_error (src : String) :
    ∀ (l : List (String × Yaml)) (e : PyErr),
    dimension_fields src l = .error e → e = .attributeError := by
  intro l
  induction l with
  | nil =>
    intro e h
    simp [dimension_fields] at h
  | cons q tl ih =>
    intro e h
    obtain ⟨n, d⟩ := q
    rw [show dimension_fields src ((n, d) :: tl) =
      (match dimension_field src n d with
       | .error e => .error e
       | .ok f =>
         match dimension_fields src tl with
         | .error e => .error e
         | .ok fs => .ok (f :: fs)) from rfl] at h
    cases h1 : dimension_field src n d with
    | error e1 =>
      rw [h1] at h
      rw [← Except.error.inj h]
      exact dimension_field_error src n d e1 h1
    | ok f =>
      rw [h1] at h
      cases h2 : dimension_fields src tl with
      | error e2 =>
        rw [h2] at h
        rw [← Except.error.inj h]
        exact ih e2 h2
      | ok fs =>
        rw [h2] at h
        cases h

theorem dims_part_error (v : List (String × Yaml)) (src : String) (e : PyErr)
    (h : dims_part v src = .error e) : e = .attributeError := by
  unfold dims_part at h
  cases hd : v.lookup "dimensions" with
  | none => rw [hd] at h; cases h
  | some d =>
    rw [hd] at h
    cases d with
    | map l => exact dimension_fields_error src l e h
    | str s => exact (Except.error.inj h).symm
    | int n => exact (Except.error.inj h).symm
    | bool b => exact (Except.error.inj h).symm
    | null => exact (Except.error.inj h).symm
    | seq l => exact (Except.error.inj h).symm

/-- Claim C9 as amended: the Field Extractor performs no per-entry
shape check — whenever the `dimensions` or the `measures` value of a
view is a mapping in which some field entry's value is not itself a
mapping, extraction raises `AttributeError` (from `field_def.get`) —
and the Field Collector catches the exception per table, such a table
contributing zero fields. -/
theorem C9_shape_check_amended (src : String) (v : List (String × Yaml))
    (h : (∃ dl, v.lookup "dimensions" = some (Yaml.map dl)
            ∧ ∃ p ∈ dl, p.2.isMap = false)
       ∨ (∃ ml, v.lookup "measures" = some (Yaml.map ml)
            ∧ ∃ p ∈ ml, p.2.isMap = false)) :
    get_fields_from_view v src = .error PyErr.attributeError
    ∧ ∀ (files : Bundle) (t f : String),
        probe_view_file t files = some f →
        files.lookup f = some (PyFile.ok (Yaml.map v)) →
        table_contribution files t = [] := by
  have hext : ∀ (s : String),
      get_fields_from_view v s = .error PyErr.attributeError := by
    intro s
    rcases h with ⟨dl, hdl, hbad⟩ | ⟨ml, hml, hbad⟩
    · have hdp : dims_part v s = .error .attributeError := by
        unfold dims_part
        rw [hdl]
        exact dimension_fields_bad s dl hbad
      unfold get_fields_from_view
      rw [hdp]
    · have hmp : meas_part v s = .error .attributeError := by
        unfold meas_part
        rw [hml]
        exact measure_fields_bad s ml hbad
      unfold get_fields_from_view
      cases hd : dims_part v s with
      | error e => rw [dims_part_error v s e hd]
      | ok ds => rw [hmp]
  refine ⟨hext src, ?_⟩
  intro files t f h1 h2
  simp [table_contribution, h1, h2, safe_load, hext t]

/-- Witness for claim C9's amended theorem, once at a dimensions
mapping whose bad entry follows a good one, and once at a measures
mapping with a bad second entry. -/
theorem C9_shape_check_witness :
    get_fields_from_view
      [("dimensions", Yaml.map [("good", Yaml.map []), ("bad", Yaml.null)])]
      "t1" = .error PyErr.attributeError
    ∧ get_fields_from_view
        [("dimensions", Yaml.map [("d1", Yaml.map [])]),
         ("measures", Yaml.map [("m1", Yaml.map []), ("m2", Yaml.str "oops")])]
        "t2" = .error PyErr.attributeError :=
  ⟨(C9_shape_check_amended "t1"
      [("dimensions", Yaml.map [("good", Yaml.map []), ("bad", Yaml.null)])]
      (Or.inl ⟨[("good", Yaml.map []), ("bad", Yaml.null)], rfl,
        ⟨("bad", Yaml.null),
         List.mem_cons_of_mem _ (List.mem_cons_self _ _), rfl⟩⟩)).1,
   (C9_shape_check_amended "t2"
      [("dimensions", Yaml.map [("d1", Yaml.map [])]),
       ("measures", Yaml.map [("m1", Yaml.map []), ("m2", Yaml.str "oops")])]
      (Or.inr ⟨[("m1", Yaml.map []), ("m2", Yaml.str "oops")], rfl,
        ⟨("m2", Yaml.str "oops"),
         List.mem_cons_of_mem _ (List.mem_cons_self _ _), rfl⟩⟩)).1⟩

end Catalog
